import Mathlib

/-!
Verification of the `file_via_socket.py` server script.

The script is a minimal TCP listener: it accepts one connection at a time,
streams the raw bytes of the connection into a freshly created file whose
name encodes the accept-time timestamp, and reports the transferred byte
count.  The definitions below are a shallow embedding of the script:

* `check_port_value` models the command-line port validator
  (`file_via_socket.py`, lines 62-67); raising `ValueError` is modelled by
  `Except.error`.
* `bytes2human_readable` models the byte-count formatter (lines 70-79).
  Python divides by a power of two in double precision, which is exact for
  the magnitudes involved, and `"...:.2f..."`.format rounds the exact value
  to two decimals with round-half-to-even; `roundHalfEven` reproduces that
  on exact rational arithmetic.
* `padDigits`/`padNum` model zero-padded fixed-width decimal fields as
  produced by `strftime` (`%y`, `%m`, ..., `%f`).
* `mkFileName` models the file-name construction of lines 132-140.
* `RecvEvent`/`recvLoop` model the per-connection receive loop of lines
  144-154: a `chunk` event is one `conn.recv(4096)` result (an empty chunk
  is the zero-length read signalling clean EOF), a `reset` event is a
  `ConnectionResetError` raised by `recv`.
* `handleConn`/`serverRun` model one iteration, resp. the whole run, of the
  outer accept loop (lines 124-161), including the fatal
  `FileNotFoundError`/`PermissionError` handlers that print a message and
  call `exit(1)`.
-/

namespace FileViaSocket

/-- Resolved configuration as consumed by the serve loop: output directory
path (empty means current directory), file-name prefix and extension. -/
structure Config where
  path : String
  pfx : String
  ext : String
deriving DecidableEq

/-- A wall-clock timestamp as captured by `datetime.now()`: calendar fields
plus a microsecond field. -/
structure Timestamp where
  year : Nat
  month : Nat
  day : Nat
  hour : Nat
  minute : Nat
  second : Nat
  microsecond : Nat
deriving DecidableEq

/-- Field ranges of a Python `datetime` value. -/
def Timestamp.Valid (t : Timestamp) : Prop :=
  1 ≤ t.year ∧ t.year ≤ 9999 ∧ 1 ≤ t.month ∧ t.month ≤ 12 ∧ 1 ≤ t.day ∧ t.day ≤ 31 ∧
  t.hour ≤ 23 ∧ t.minute ≤ 59 ∧ t.second ≤ 59 ∧ t.microsecond ≤ 999999

instance (t : Timestamp) : Decidable t.Valid := by
  unfold Timestamp.Valid
  infer_instance

/-- `padDigits k n` is the list of the `k` low decimal digits of `n`,
most significant first: the zero-padded fixed-width decimal rendering used
by `strftime` for `%y %m %d %H %M %S` (width 2) and `%f` (width 6). -/
def padDigits : Nat → Nat → List Char
  | 0, _ => []
  | k + 1, n => padDigits k (n / 10) ++ [Nat.digitChar (n % 10)]

/-- String view of `padDigits`. -/
def padNum (k n : Nat) : String := String.mk (padDigits k n)

/-- Model of `now.strftime("_%y%m%d_%H%M%S")` (line 138): `%y` is the year
modulo 100, all fields zero-padded to width 2. -/
def strftimeDateTime (t : Timestamp) : String :=
  "_" ++ padNum 2 (t.year % 100) ++ padNum 2 t.month ++ padNum 2 t.day ++
  "_" ++ padNum 2 t.hour ++ padNum 2 t.minute ++ padNum 2 t.second

/-- Model of `now.strftime("%f")`: the microsecond field zero-padded to six
digits. -/
def strftimeMicro (t : Timestamp) : String := padNum 6 t.microsecond

/-- Model of the file-name construction (lines 132-140): optional directory
part, prefix, date-time stamp, first four characters of the `%f` field, and
an optional dot-extension. -/
def mkFileName (cfg : Config) (t : Timestamp) : String :=
  let base := if cfg.path ≠ "" then cfg.path ++ "/" else ""
  let name := base ++ cfg.pfx ++ strftimeDateTime t ++ "." ++
    String.mk ((strftimeMicro t).data.take 4)
  if cfg.ext ≠ "" then name ++ "." ++ cfg.ext else name

/-- Model of `check_port_value` (lines 62-67).  The Python function raises
`ValueError` when `port <= 1023 or port > 65535` and returns the port
otherwise; the raise is modelled by `Except.error`. -/
def check_port_value (port : Int) : Except Unit Int :=
  if port ≤ 1023 ∨ 65535 < port then Except.error () else Except.ok port

/-- Round `num / den` to the nearest integer, ties to even: the rounding
performed by Python float formatting on an exactly representable value. -/
def roundHalfEven (num den : Nat) : Nat :=
  let q := num / den
  let r := num % den
  if 2 * r < den then q
  else if den < 2 * r then q + 1
  else if q % 2 = 0 then q else q + 1

/-- Two-decimal fixed-point rendering of `num / den`, as produced by
Python's `"...:.2f..."` format of the exact quotient. -/
def fmt2 (num den : Nat) : String :=
  let x := roundHalfEven (num * 100) den
  toString (x / 100) ++ "." ++ padNum 2 (x % 100)

/-- Model of `bytes2human_readable` (lines 70-79): strict greater-than
thresholds at powers of 1024, two-decimal precision above the `B` range. -/
def bytes2human_readable (n : Nat) : String :=
  if 1024 * 1024 * 1024 < n then fmt2 n (1024 * 1024 * 1024) ++ " GB"
  else if 1024 * 1024 < n then fmt2 n (1024 * 1024) ++ " MB"
  else if 1024 < n then fmt2 n 1024 ++ " KB"
  else toString n ++ " B"

/-- One observable event of `conn.recv(4096)` inside the receive loop:
either a received chunk (empty chunk = zero-length read = clean EOF), or a
`ConnectionResetError`. -/
inductive RecvEvent where
  | chunk (data : List Nat)
  | reset
deriving DecidableEq

/-- Model of the receive loop (lines 144-154), carrying the file contents
written so far and the running `dataTotal` counter.  A non-empty chunk is
written to the file and counted; an empty chunk (clean EOF) and a reset
both break the loop.  Returns the final file contents and `dataTotal`. -/
def recvLoop : List RecvEvent → List Nat → Nat → List Nat × Nat
  | [], file, total => (file, total)
  | RecvEvent.chunk d :: rest, file, total =>
    if d.isEmpty then (file, total)
    else recvLoop rest (file ++ d) (total + d.length)
  | RecvEvent.reset :: _, file, total => (file, total)

/-- The two `open` failures the script handles (lines 156-161). -/
inductive OpenError where
  | fileNotFound
  | permissionError
deriving DecidableEq

/-- One accepted connection: its accept-time timestamp, whether opening the
output file fails (and how), and the events delivered by `recv`. -/
structure ConnSpec where
  ts : Timestamp
  openErr : Option OpenError
  events : List RecvEvent
deriving DecidableEq

/-- What one successful connection leaves behind: the file (name and
contents) and the printed transfer report. -/
structure FileRec where
  name : String
  content : List Nat
  reported : String
deriving DecidableEq

/-- The error message printed by the `FileNotFoundError` handler
(line 157), resp. the `PermissionError` handler (line 160). -/
def openErrMsg : OpenError → String → String
  | OpenError.fileNotFound, nm => "ERROR: Unable to open file \x27" ++ nm ++ "\x27"
  | OpenError.permissionError, nm => "ERROR: Permission error when opening file \x27" ++ nm ++ "\x27"

/-- Model of one iteration of the outer loop for an already accepted
connection (lines 132-161): build the file name, open the file (possibly
failing fatally), run the receive loop, report the total. -/
def handleConn (cfg : Config) (c : ConnSpec) : Except String FileRec :=
  match c.openErr with
  | some e => Except.error (openErrMsg e (mkFileName cfg c.ts))
  | none =>
    let r := recvLoop c.events [] 0
    Except.ok ⟨mkFileName cfg c.ts, r.1, "    Received total: " ++ bytes2human_readable r.2⟩

/-- Observable outcome of a server run: files produced, the error message
printed on a fatal open failure, and the exit status if the process exited. -/
structure ServerResult where
  files : List FileRec
  exitMsg : Option String
  exitCode : Option Nat
deriving DecidableEq

/-- Model of the outer accept loop (lines 124-161) over a finite list of
incoming connections: each connection is handled in order; a fatal open
failure prints its message and exits with status 1, processing no further
connections. -/
def serverRun (cfg : Config) : List ConnSpec → ServerResult
  | [] => ⟨[], none, none⟩
  | c :: rest =>
    match handleConn cfg c with
    | Except.ok fr =>
      let r := serverRun cfg rest
      ⟨fr :: r.files, r.exitMsg, r.exitCode⟩
    | Except.error msg => ⟨[], some msg, some 1⟩

/-- The `FileRec` produced by a connection whose file opens successfully. -/
def okFileRec (cfg : Config) (g : ConnSpec) : FileRec :=
  ⟨mkFileName cfg g.ts, (recvLoop g.events [] 0).1,
    "    Received total: " ++ bytes2human_readable (recvLoop g.events [] 0).2⟩

theorem handleConn_ok (cfg : Config) (g : ConnSpec) (h : g.openErr = none) :
    handleConn cfg g = Except.ok (okFileRec cfg g) := by
  unfold handleConn okFileRec
  rw [h]

/-- Feeding a run of non-empty chunks to the receive loop appends their
concatenation to the file and adds their total length to the counter. -/
theorem recvLoop_chunks (cs : List (List Nat)) (rest : List RecvEvent)
    (file : List Nat) (total : Nat) (h : ∀ c ∈ cs, c ≠ []) :
    recvLoop (cs.map RecvEvent.chunk ++ rest) file total =
      recvLoop rest (file ++ cs.flatten) (total + cs.flatten.length) := by
  induction cs generalizing file total with
  | nil => simp
  | cons c cs ih =>
    have hc : c ≠ [] := h c (List.mem_cons_self c cs)
    have hcs : ∀ x ∈ cs, x ≠ [] := fun x hx => h x (List.mem_cons_of_mem c hx)
    simp only [List.map_cons, List.cons_append, recvLoop, List.append_eq]
    rw [if_neg (by simp [hc])]
    rw [ih (file ++ c) (total + c.length) hcs]
    simp [List.append_assoc, Nat.add_assoc]

/-- The two fatal open-failure messages differ (they disagree at the
eighth character) whatever file names they mention. -/
theorem openErrMsg_ne (nm : String) :
    openErrMsg OpenError.fileNotFound nm ≠ openErrMsg OpenError.permissionError nm := by
  intro h
  have h7 := congrArg (fun s => s.data[7]?) h
  simp only [openErrMsg, String.data_append, List.append_assoc] at h7
  rw [List.getElem?_append_left (by decide), List.getElem?_append_left (by decide)] at h7
  exact absurd h7 (by decide)

/-- Claim C1: for every accepted connection that ends by a clean peer close
(a zero-length read), the bytes stored in the output file are exactly, in
order, the concatenation of the non-empty chunks received, with nothing
prepended or appended, for every payload size. -/
theorem clean_close_roundtrip (cfg : Config) (ts : Timestamp) (cs : List (List Nat))
    (more : List RecvEvent) (h : ∀ c ∈ cs, c ≠ []) :
    handleConn cfg ⟨ts, none, cs.map RecvEvent.chunk ++ RecvEvent.chunk [] :: more⟩ =
      Except.ok ⟨mkFileName cfg ts, cs.flatten,
        "    Received total: " ++ bytes2human_readable cs.flatten.length⟩ := by
  unfold handleConn
  rw [recvLoop_chunks cs (RecvEvent.chunk [] :: more) [] 0 h]
  simp [recvLoop]

/-- Claim C1 witness: a concrete two-chunk transfer ending in a clean close. -/
theorem clean_close_roundtrip_witness :
    handleConn ⟨"", "via_socket", "txt"⟩
        ⟨⟨2024, 5, 9, 7, 3, 4, 123456⟩, none,
          ([[1, 2], [3]].map RecvEvent.chunk) ++ RecvEvent.chunk [] :: []⟩ =
      Except.ok ⟨mkFileName ⟨"", "via_socket", "txt"⟩ ⟨2024, 5, 9, 7, 3, 4, 123456⟩,
        ([[1, 2], [3]] : List (List Nat)).flatten,
        "    Received total: " ++
          bytes2human_readable ([[1, 2], [3]] : List (List Nat)).flatten.length⟩ :=
  clean_close_roundtrip ⟨"", "via_socket", "txt"⟩ ⟨2024, 5, 9, 7, 3, 4, 123456⟩
    [[1, 2], [3]] [] (by decide)

/-- Claim C2: a connection abruptly reset after N received bytes leaves a
file with exactly those N bytes, reports the total, raises no fatal error,
and the server goes on to process the remaining connections unchanged. -/
theorem reset_normal_end (cfg : Config) (ts : Timestamp) (cs : List (List Nat))
    (more : List RecvEvent) (rest : List ConnSpec) (h : ∀ c ∈ cs, c ≠ []) :
    serverRun cfg (⟨ts, none, cs.map RecvEvent.chunk ++ RecvEvent.reset :: more⟩ :: rest) =
      ⟨⟨mkFileName cfg ts, cs.flatten,
          "    Received total: " ++ bytes2human_readable cs.flatten.length⟩ ::
            (serverRun cfg rest).files,
        (serverRun cfg rest).exitMsg, (serverRun cfg rest).exitCode⟩ := by
  simp only [serverRun, handleConn]
  rw [recvLoop_chunks cs (RecvEvent.reset :: more) [] 0 h]
  simp [recvLoop]

/-- Claim C2 witness: a concrete reset after three bytes, followed by one
further clean connection that is still served. -/
theorem reset_normal_end_witness :
    serverRun ⟨"", "via_socket", "txt"⟩
        [⟨⟨2024, 5, 9, 7, 3, 4, 123456⟩, none,
            ([[1, 2], [3]].map RecvEvent.chunk) ++ RecvEvent.reset :: []⟩,
          ⟨⟨2024, 5, 9, 7, 3, 5, 0⟩, none, [RecvEvent.chunk []]⟩] =
      ⟨⟨mkFileName ⟨"", "via_socket", "txt"⟩ ⟨2024, 5, 9, 7, 3, 4, 123456⟩,
          ([[1, 2], [3]] : List (List Nat)).flatten,
          "    Received total: " ++
            bytes2human_readable ([[1, 2], [3]] : List (List Nat)).flatten.length⟩ ::
            (serverRun ⟨"", "via_socket", "txt"⟩
              [⟨⟨2024, 5, 9, 7, 3, 5, 0⟩, none, [RecvEvent.chunk []]⟩]).files,
        (serverRun ⟨"", "via_socket", "txt"⟩
          [⟨⟨2024, 5, 9, 7, 3, 5, 0⟩, none, [RecvEvent.chunk []]⟩]).exitMsg,
        (serverRun ⟨"", "via_socket", "txt"⟩
          [⟨⟨2024, 5, 9, 7, 3, 5, 0⟩, none, [RecvEvent.chunk []]⟩]).exitCode⟩ :=
  reset_normal_end ⟨"", "via_socket", "txt"⟩ ⟨2024, 5, 9, 7, 3, 4, 123456⟩
    [[1, 2], [3]] [] [⟨⟨2024, 5, 9, 7, 3, 5, 0⟩, none, [RecvEvent.chunk []]⟩] (by decide)

/-- After any number of successfully handled connections, a connection
whose file fails to open stops the run: the files are exactly those of the
earlier connections, the matching error message is printed, and the exit
status is 1. -/
theorem serverRun_open_failure (cfg : Config) (good : List ConnSpec) (c : ConnSpec)
    (rest : List ConnSpec) (e : OpenError)
    (hg : ∀ g ∈ good, g.openErr = none) (hc : c.openErr = some e) :
    serverRun cfg (good ++ c :: rest) =
      ⟨good.map (okFileRec cfg), some (openErrMsg e (mkFileName cfg c.ts)), some 1⟩ := by
  induction good with
  | nil =>
    simp only [List.nil_append, serverRun, handleConn, List.map_nil]
    rw [hc]
  | cons g gs ih =>
    have hgnone : g.openErr = none := hg g (List.mem_cons_self g gs)
    have ih2 := ih (fun x hx => hg x (List.mem_cons_of_mem g hx))
    simp only [List.cons_append, serverRun, handleConn_ok cfg g hgnone, List.append_eq, ih2,
      List.map_cons]

/-- Claim C3: a connection whose output file cannot be opened (missing
directory or permission denied) makes the process print an error naming the
failing file, with a message that distinguishes the two causes, exit with
status 1, and process no further connections. -/
theorem open_failure_fatal (cfg : Config) (good : List ConnSpec) (c : ConnSpec)
    (rest : List ConnSpec) (e : OpenError)
    (hg : ∀ g ∈ good, g.openErr = none) (hc : c.openErr = some e) :
    (serverRun cfg (good ++ c :: rest)).files.length = good.length ∧
    (serverRun cfg (good ++ c :: rest)).exitCode = some 1 ∧
    (serverRun cfg (good ++ c :: rest)).exitMsg =
      some (openErrMsg e (mkFileName cfg c.ts)) ∧
    openErrMsg OpenError.fileNotFound (mkFileName cfg c.ts) ≠
      openErrMsg OpenError.permissionError (mkFileName cfg c.ts) := by
  rw [serverRun_open_failure cfg good c rest e hg hc]
  exact ⟨List.length_map good _, rfl, rfl, openErrMsg_ne _⟩

/-- Claim C3 witness: a first connection hitting a missing directory. -/
theorem open_failure_fatal_witness :
    (serverRun ⟨"/nosuch", "via_socket", "txt"⟩
        ([] ++ ⟨⟨2024, 5, 9, 7, 3, 4, 123456⟩, some OpenError.fileNotFound, []⟩ :: [])).files.length =
      ([] : List ConnSpec).length ∧
    (serverRun ⟨"/nosuch", "via_socket", "txt"⟩
        ([] ++ ⟨⟨2024, 5, 9, 7, 3, 4, 123456⟩, some OpenError.fileNotFound, []⟩ :: [])).exitCode =
      some 1 ∧
    (serverRun ⟨"/nosuch", "via_socket", "txt"⟩
        ([] ++ ⟨⟨2024, 5, 9, 7, 3, 4, 123456⟩, some OpenError.fileNotFound, []⟩ :: [])).exitMsg =
      some (openErrMsg OpenError.fileNotFound
        (mkFileName ⟨"/nosuch", "via_socket", "txt"⟩ ⟨2024, 5, 9, 7, 3, 4, 123456⟩)) ∧
    openErrMsg OpenError.fileNotFound
        (mkFileName ⟨"/nosuch", "via_socket", "txt"⟩ ⟨2024, 5, 9, 7, 3, 4, 123456⟩) ≠
      openErrMsg OpenError.permissionError
        (mkFileName ⟨"/nosuch", "via_socket", "txt"⟩ ⟨2024, 5, 9, 7, 3, 4, 123456⟩) :=
  open_failure_fatal ⟨"/nosuch", "via_socket", "txt"⟩ []
    ⟨⟨2024, 5, 9, 7, 3, 4, 123456⟩, some OpenError.fileNotFound, []⟩ []
    OpenError.fileNotFound (by simp) rfl

/-- Claim C6 counterexample: port 1 lies in the range 1..65535 that the
claim says is accepted, yet `check_port_value` rejects it (the code rejects
everything at or below 1023). -/
theorem port_low_rejected_counterexample :
    1 ≤ (1 : Int) ∧ (1 : Int) ≤ 65535 ∧ check_port_value 1 = Except.error () :=
  ⟨le_refl 1, by decide, rfl⟩

/-- Claim C6 (amended): the port validator returns the port unchanged
exactly on the range 1024..65535 and raises exactly outside it. -/
theorem port_check_range (port : Int) :
    (check_port_value port = Except.ok port ↔ 1024 ≤ port ∧ port ≤ 65535) ∧
    (check_port_value port = Except.error () ↔ port ≤ 1023 ∨ 65535 < port) := by
  unfold check_port_value
  by_cases h : port ≤ 1023 ∨ 65535 < port
  · rw [if_pos h]
    exact ⟨⟨fun hc => absurd hc (by simp), fun hc => absurd h (by omega)⟩,
      ⟨fun _ => h, fun _ => rfl⟩⟩
  · rw [if_neg h]
    exact ⟨⟨fun _ => by omega, fun _ => rfl⟩,
      ⟨fun hc => absurd hc (by simp), fun hc => absurd hc h⟩⟩

/-- Claim C7: the formatter uses binary thresholds with two decimals above
the byte range: 512, 2048, 5242880 and 3221225472 bytes format as claimed. -/
theorem bytes_formatting_examples :
    bytes2human_readable 512 = "512 B" ∧
    bytes2human_readable 2048 = "2.00 KB" ∧
    bytes2human_readable 5242880 = "5.00 MB" ∧
    bytes2human_readable 3221225472 = "3.00 GB" :=
  ⟨rfl, rfl, rfl, rfl⟩

/-- Claim C8: a connection whose peer closes without sending anything ends
on the first zero-length read, leaves the file empty, and reports `0 B`. -/
theorem empty_transfer_zero_bytes (cfg : Config) (ts : Timestamp) (more : List RecvEvent) :
    handleConn cfg ⟨ts, none, RecvEvent.chunk [] :: more⟩ =
      Except.ok ⟨mkFileName cfg ts, [], "    Received total: 0 B"⟩ := by
  have h0 : "    Received total: " ++ bytes2human_readable 0 = "    Received total: 0 B" := by
    decide
  unfold handleConn
  simp [recvLoop, h0]

/-- Claim C9: the receive loop keeps `dataTotal` equal to the number of
bytes written to the file, so the reported count equals the final file
length on every exit path (clean EOF, reset, or exhausted input). -/
theorem dataTotal_matches_file_length (events : List RecvEvent) (file : List Nat)
    (total : Nat) (h : total = file.length) :
    (recvLoop events file total).2 = (recvLoop events file total).1.length := by
  induction events generalizing file total with
  | nil => simpa [recvLoop] using h
  | cons e rest ih =>
    cases e with
    | chunk d =>
      by_cases hd : d.isEmpty
      · simpa [recvLoop, hd] using h
      · simp only [recvLoop, if_neg hd]
        exact ih (file ++ d) (total + d.length) (by simp [h])
    | reset => simpa [recvLoop] using h

/-- Claim C9 witness: the invariant instantiated on a concrete transfer. -/
theorem dataTotal_matches_file_length_witness :
    (recvLoop [RecvEvent.chunk [7, 8]] [] 0).2 =
      (recvLoop [RecvEvent.chunk [7, 8]] [] 0).1.length :=
  dataTotal_matches_file_length [RecvEvent.chunk [7, 8]] [] 0 rfl

/-- Claim C10: every unit threshold is a strict greater-than comparison, so
exact powers of 1024 format in the lower unit. -/
theorem threshold_strict_boundaries :
    bytes2human_readable 1024 = "1024 B" ∧
    bytes2human_readable 1048576 = "1024.00 KB" ∧
    bytes2human_readable 1073741824 = "1024.00 MB" :=
  ⟨rfl, rfl, rfl⟩

theorem string_data_inj (s t : String) (h : s.data = t.data) : s = t := by
  cases s
  cases t
  exact congrArg String.mk h

theorem padDigits_length (k n : Nat) : (padDigits k n).length = k := by
  induction k generalizing n with
  | zero => rfl
  | succ k ih => simp [padDigits, ih]

/-- Splitting a fixed-width decimal rendering: the first `j` digits render
the high part, the last `k` digits render the low part. -/
theorem padDigits_add (j k n : Nat) :
    padDigits (j + k) n = padDigits j (n / 10 ^ k) ++ padDigits k (n % 10 ^ k) := by
  induction k generalizing n with
  | zero => simp [padDigits]
  | succ k ih =>
    have e1 : n / 10 / 10 ^ k = n / 10 ^ (k + 1) := by
      rw [Nat.div_div_eq_div_mul, ← pow_succ']
    have e2 : n / 10 % 10 ^ k = n % 10 ^ (k + 1) / 10 := by
      rw [← Nat.mod_mul_right_div_self, ← pow_succ']
    have e3 : n % 10 ^ (k + 1) % 10 = n % 10 :=
      Nat.mod_mod_of_dvd n (dvd_pow_self 10 k.succ_ne_zero)
    calc padDigits (j + (k + 1)) n
        = padDigits (j + k) (n / 10) ++ [Nat.digitChar (n % 10)] := rfl
      _ = (padDigits j (n / 10 / 10 ^ k) ++ padDigits k (n / 10 % 10 ^ k)) ++
            [Nat.digitChar (n % 10)] := by rw [ih]
      _ = padDigits j (n / 10 ^ (k + 1)) ++
            (padDigits k (n % 10 ^ (k + 1) / 10) ++
              [Nat.digitChar (n % 10 ^ (k + 1) % 10)]) := by
            rw [e1, e2, e3, List.append_assoc]
      _ = padDigits j (n / 10 ^ (k + 1)) ++ padDigits (k + 1) (n % 10 ^ (k + 1)) := rfl

/-- The first four characters of the six-digit `%f` field are the four-digit
rendering of the microseconds divided by 100. -/
theorem take4_pad6 (n : Nat) : (padDigits 6 n).take 4 = padDigits 4 (n / 100) := by
  have h := padDigits_add 4 2 n
  norm_num at h
  rw [h, List.take_left' (padDigits_length 4 (n / 100))]

/-- The date-time-fraction stamp of a file name, as a character list. -/
def stampChars (t : Timestamp) : List Char :=
  '_' :: (padDigits 2 (t.year % 100) ++ (padDigits 2 t.month ++ (padDigits 2 t.day ++
    ('_' :: (padDigits 2 t.hour ++ (padDigits 2 t.minute ++ (padDigits 2 t.second ++
      ('.' :: padDigits 4 (t.microsecond / 100)))))))))

theorem stampChars_length (t : Timestamp) : (stampChars t).length = 19 := by
  simp [stampChars, padDigits_length]

/-- Character-level view of `mkFileName`: directory part, prefix, stamp,
extension part. -/
theorem mkFileName_data (cfg : Config) (t : Timestamp) :
    (mkFileName cfg t).data =
      (if cfg.path = "" then [] else cfg.path.data ++ ['/']) ++
        (cfg.pfx.data ++ (stampChars t ++
          (if cfg.ext = "" then [] else '.' :: cfg.ext.data))) := by
  unfold mkFileName strftimeDateTime strftimeMicro
  by_cases hp : cfg.path = "" <;> by_cases he : cfg.ext = "" <;>
    simp [hp, he, String.data_append, stampChars, padNum, take4_pad6, List.append_assoc]

theorem lex_append_left (xs ys zs : List Char) (h : List.Lex (· < ·) ys zs) :
    List.Lex (· < ·) (xs ++ ys) (xs ++ zs) := by
  induction xs with
  | nil => simpa using h
  | cons a l ih => exact List.Lex.cons ih

theorem lex_append_of_length_eq (as bs ys zs : List Char) (hlen : as.length = bs.length)
    (h : List.Lex (· < ·) as bs) : List.Lex (· < ·) (as ++ ys) (bs ++ zs) := by
  induction h with
  | nil => simp at hlen
  | rel hr => exact List.Lex.rel hr
  | cons h ih => exact List.Lex.cons (ih (by simpa using hlen))

theorem lex_irrefl (l : List Char) : ¬ List.Lex (· < ·) l l := by
  induction l with
  | nil => intro h; cases h
  | cons a l ih =>
    intro h
    cases h with
    | cons h => exact ih h
    | rel hr => exact absurd hr (lt_irrefl a)

theorem digitChar_mono : ∀ b < 10, ∀ a < b, Nat.digitChar a < Nat.digitChar b := by decide

/-- Front view of `padDigits`: most significant digit first. -/
theorem padDigits_front (k n : Nat) :
    padDigits (k + 1) n = Nat.digitChar (n / 10 ^ k % 10) :: padDigits k (n % 10 ^ k) := by
  have h := padDigits_add 1 k n
  rw [Nat.add_comm 1 k] at h
  rw [h]
  rfl

/-- Fixed-width zero-padded decimal rendering is strictly monotone with
respect to lexicographic order, for numbers within the width. -/
theorem padDigits_lex (k m n : Nat) (hmn : m < n) (hn : n < 10 ^ k) :
    List.Lex (· < ·) (padDigits k m) (padDigits k n) := by
  induction k generalizing m n with
  | zero => simp at hn; omega
  | succ k ih =>
    rw [padDigits_front, padDigits_front]
    have hpow : 0 < 10 ^ k := pow_pos (by norm_num) k
    have hn10 : n / 10 ^ k < 10 := by
      rw [Nat.div_lt_iff_lt_mul hpow]
      calc n < 10 ^ (k + 1) := hn
        _ = 10 * 10 ^ k := pow_succ' 10 k
    have hm10 : m / 10 ^ k < 10 := by
      rw [Nat.div_lt_iff_lt_mul hpow]
      calc m < 10 ^ (k + 1) := hmn.trans hn
        _ = 10 * 10 ^ k := pow_succ' 10 k
    rcases Nat.lt_or_ge (m / 10 ^ k) (n / 10 ^ k) with hlt | hge
    · apply List.Lex.rel
      show Nat.digitChar (m / 10 ^ k % 10) < Nat.digitChar (n / 10 ^ k % 10)
      rw [Nat.mod_eq_of_lt hm10, Nat.mod_eq_of_lt hn10]
      exact digitChar_mono _ hn10 _ hlt
    · have heq : m / 10 ^ k = n / 10 ^ k :=
        le_antisymm (Nat.div_le_div_right hmn.le) hge
      rw [heq]
      apply List.Lex.cons
      apply ih
      · have h3 : 10 ^ k * (m / 10 ^ k) + m % 10 ^ k <
            10 ^ k * (n / 10 ^ k) + n % 10 ^ k := by
          rw [Nat.div_add_mod m (10 ^ k), Nat.div_add_mod n (10 ^ k)]
          exact hmn
        rw [heq] at h3
        exact Nat.lt_of_add_lt_add_left h3
      · exact Nat.mod_lt n hpow

theorem padDigits2_lex (m n : Nat) (hmn : m < n) (hn : n < 100) :
    List.Lex (· < ·) (padDigits 2 m) (padDigits 2 n) :=
  padDigits_lex 2 m n hmn (hn.trans_eq (by norm_num))

theorem padDigits4_lex (m n : Nat) (hmn : m < n) (hn : n < 10000) :
    List.Lex (· < ·) (padDigits 4 m) (padDigits 4 n) :=
  padDigits_lex 4 m n hmn (hn.trans_eq (by norm_num))

/-- All calendar fields down to seconds agree. -/
def Timestamp.SecondsEq (t1 t2 : Timestamp) : Prop :=
  t1.year = t2.year ∧ t1.month = t2.month ∧ t1.day = t2.day ∧
  t1.hour = t2.hour ∧ t1.minute = t2.minute ∧ t1.second = t2.second

instance (t1 t2 : Timestamp) : Decidable (Timestamp.SecondsEq t1 t2) := by
  unfold Timestamp.SecondsEq
  infer_instance

/-- `t1` is strictly earlier than `t2`: lexicographic comparison of the
calendar fields, microseconds last. -/
def Timestamp.Earlier (t1 t2 : Timestamp) : Prop :=
  t1.year < t2.year ∨ (t1.year = t2.year ∧ (t1.month < t2.month ∨ (t1.month = t2.month ∧
  (t1.day < t2.day ∨ (t1.day = t2.day ∧ (t1.hour < t2.hour ∨ (t1.hour = t2.hour ∧
  (t1.minute < t2.minute ∨ (t1.minute = t2.minute ∧ (t1.second < t2.second ∨
  (t1.second = t2.second ∧ t1.microsecond < t2.microsecond)))))))))))

instance (t1 t2 : Timestamp) : Decidable (Timestamp.Earlier t1 t2) := by
  unfold Timestamp.Earlier
  infer_instance

/-- `t1` precedes `t2` by strictly more than one ten-thousandth of a
second: `t1` is earlier, and when the two accept times fall within the same
wall-clock second the microsecond fields are more than 100 apart.  Any pair
of timestamps with `t1` earlier in real time and a real gap above 100
microseconds satisfies this predicate (equal seconds prefix forces the
microsecond condition; a differing prefix needs nothing), so it is a sound
rendering of the claim's hypothesis. -/
def Timestamp.GapOverTenThousandth (t1 t2 : Timestamp) : Prop :=
  Timestamp.Earlier t1 t2 ∧
  (Timestamp.SecondsEq t1 t2 → t1.microsecond + 100 < t2.microsecond)

instance (t1 t2 : Timestamp) : Decidable (Timestamp.GapOverTenThousandth t1 t2) := by
  unfold Timestamp.GapOverTenThousandth
  infer_instance

/-- Within one century, an accept time earlier by more than one
ten-thousandth of a second yields a lexicographically smaller stamp. -/
theorem stampChars_lex (t1 t2 : Timestamp) (h2 : t2.Valid)
    (hgap : Timestamp.GapOverTenThousandth t1 t2)
    (hcent : t1.year / 100 = t2.year / 100) :
    List.Lex (· < ·) (stampChars t1) (stampChars t2) := by
  obtain ⟨he, husgap⟩ := hgap
  obtain ⟨-, -, -, hmo2, -, hd2, hh2, hmi2, hs2, hus2⟩ := h2
  unfold Timestamp.Earlier at he
  unfold stampChars
  rcases he with hy | ⟨hy, hmo | ⟨hmo, hd | ⟨hd, hh | ⟨hh, hmi | ⟨hmi, hs | ⟨hs, huslt⟩⟩⟩⟩⟩⟩
  · have hy100 : t1.year % 100 < t2.year % 100 := by omega
    exact List.Lex.cons (lex_append_of_length_eq _ _ _ _
      (by simp [padDigits_length]) (padDigits2_lex _ _ hy100 (by omega)))
  · rw [hy]
    exact List.Lex.cons (lex_append_left _ _ _
      (lex_append_of_length_eq _ _ _ _ (by simp [padDigits_length])
        (padDigits2_lex _ _ hmo (by omega))))
  · rw [hy, hmo]
    exact List.Lex.cons (lex_append_left _ _ _ (lex_append_left _ _ _
      (lex_append_of_length_eq _ _ _ _ (by simp [padDigits_length])
        (padDigits2_lex _ _ hd (by omega)))))
  · rw [hy, hmo, hd]
    exact List.Lex.cons (lex_append_left _ _ _ (lex_append_left _ _ _
      (lex_append_left _ _ _ (List.Lex.cons
        (lex_append_of_length_eq _ _ _ _ (by simp [padDigits_length])
          (padDigits2_lex _ _ hh (by omega)))))))
  · rw [hy, hmo, hd, hh]
    exact List.Lex.cons (lex_append_left _ _ _ (lex_append_left _ _ _
      (lex_append_left _ _ _ (List.Lex.cons (lex_append_left _ _ _
        (lex_append_of_length_eq _ _ _ _ (by simp [padDigits_length])
          (padDigits2_lex _ _ hmi (by omega))))))))
  · rw [hy, hmo, hd, hh, hmi]
    exact List.Lex.cons (lex_append_left _ _ _ (lex_append_left _ _ _
      (lex_append_left _ _ _ (List.Lex.cons (lex_append_left _ _ _
        (lex_append_left _ _ _ (lex_append_of_length_eq _ _ _ _
          (by simp [padDigits_length]) (padDigits2_lex _ _ hs (by omega)))))))))
  · have hfrac : t1.microsecond / 100 < t2.microsecond / 100 := by
      have := husgap ⟨hy, hmo, hd, hh, hmi, hs⟩
      omega
    rw [hy, hmo, hd, hh, hmi, hs]
    exact List.Lex.cons (lex_append_left _ _ _ (lex_append_left _ _ _
      (lex_append_left _ _ _ (List.Lex.cons (lex_append_left _ _ _
        (lex_append_left _ _ _ (lex_append_left _ _ _ (List.Lex.cons
          (padDigits4_lex _ _ hfrac (by omega))))))))))

/-- Claim C4: the generated file name is the pure function of timestamp and
configuration `[<path>/]<pfx>_<YYMMDD>_<HHMMSS>.<frac4>[.<ext>]`, with the
extension appended exactly when `ext` is non-empty, and the four-digit
fraction equal to the first four digits of the zero-padded six-digit
microsecond field. -/
theorem filename_format (cfg : Config) (t : Timestamp) :
    mkFileName cfg t =
      (if cfg.path = "" then "" else cfg.path ++ "/") ++ cfg.pfx ++
        "_" ++ padNum 2 (t.year % 100) ++ padNum 2 t.month ++ padNum 2 t.day ++
        "_" ++ padNum 2 t.hour ++ padNum 2 t.minute ++ padNum 2 t.second ++
        "." ++ padNum 4 (t.microsecond / 100) ++
        (if cfg.ext = "" then "" else "." ++ cfg.ext) ∧
    padNum 4 (t.microsecond / 100) = String.mk ((padNum 6 t.microsecond).data.take 4) := by
  constructor
  · apply string_data_inj
    rw [mkFileName_data]
    by_cases hp : cfg.path = "" <;> by_cases he : cfg.ext = "" <;>
      simp [hp, he, String.data_append, stampChars, padNum, List.append_assoc]
  · exact congrArg String.mk (take4_pad6 t.microsecond).symm

/-- Claim C5 counterexample: across a century boundary the two-digit year
wraps, so a strictly later accept time produces a file name that is NOT
lexicographically larger, refuting the claim as stated.  The two instants
are 1999-12-31 23:59:59.000000 and 2000-01-01 00:00:00.000000: adjacent
calendar seconds with equal microsecond fields, hence exactly one full
second apart in real time, which is strictly more than one ten-thousandth
of a second, so the pair satisfies the original claim's gap hypothesis
(and a fortiori `Timestamp.GapOverTenThousandth`).  Yet the earlier
instant's file name `via_socket_991231_235959.0000.txt` is
lexicographically larger than the later instant's
`via_socket_000101_000000.0000.txt`. -/
theorem filename_order_counterexample :
    Timestamp.Valid ⟨1999, 12, 31, 23, 59, 59, 0⟩ ∧
    Timestamp.Valid ⟨2000, 1, 1, 0, 0, 0, 0⟩ ∧
    Timestamp.GapOverTenThousandth ⟨1999, 12, 31, 23, 59, 59, 0⟩
      ⟨2000, 1, 1, 0, 0, 0, 0⟩ ∧
    mkFileName ⟨"", "via_socket", "txt"⟩ ⟨1999, 12, 31, 23, 59, 59, 0⟩ =
      "via_socket_991231_235959.0000.txt" ∧
    mkFileName ⟨"", "via_socket", "txt"⟩ ⟨2000, 1, 1, 0, 0, 0, 0⟩ =
      "via_socket_000101_000000.0000.txt" ∧
    ¬ (mkFileName ⟨"", "via_socket", "txt"⟩ ⟨1999, 12, 31, 23, 59, 59, 0⟩ <
        mkFileName ⟨"", "via_socket", "txt"⟩ ⟨2000, 1, 1, 0, 0, 0, 0⟩) := by
  refine ⟨by decide, by decide, by decide, by decide, by decide, ?_⟩
  rw [String.lt_iff_toList_lt]
  decide

/-- Claim C5 (amended): for a fixed configuration and two valid accept
timestamps in the same century, with the earlier one preceding the later by
strictly more than one ten-thousandth of a second, the earlier timestamp's
file name is lexicographically smaller and the two names are distinct. -/
theorem filename_order_same_century (cfg : Config) (t1 t2 : Timestamp)
    (h2 : t2.Valid) (hgap : Timestamp.GapOverTenThousandth t1 t2)
    (hcent : t1.year / 100 = t2.year / 100) :
    mkFileName cfg t1 < mkFileName cfg t2 ∧ mkFileName cfg t1 ≠ mkFileName cfg t2 := by
  have hlex : List.Lex (· < ·) (mkFileName cfg t1).data (mkFileName cfg t2).data := by
    rw [mkFileName_data, mkFileName_data]
    apply lex_append_left
    apply lex_append_left
    exact lex_append_of_length_eq _ _ _ _
      (by rw [stampChars_length, stampChars_length])
      (stampChars_lex t1 t2 h2 hgap hcent)
  constructor
  · rw [String.lt_iff_toList_lt]
    exact hlex
  · intro heq
    rw [heq] at hlex
    exact lex_irrefl _ hlex

/-- Claim C5 witness: two valid same-century timestamps one second apart. -/
theorem filename_order_same_century_witness :
    mkFileName ⟨"", "via_socket", "txt"⟩ ⟨2024, 5, 9, 7, 3, 4, 123456⟩ <
        mkFileName ⟨"", "via_socket", "txt"⟩ ⟨2024, 5, 9, 7, 3, 5, 0⟩ ∧
      mkFileName ⟨"", "via_socket", "txt"⟩ ⟨2024, 5, 9, 7, 3, 4, 123456⟩ ≠
        mkFileName ⟨"", "via_socket", "txt"⟩ ⟨2024, 5, 9, 7, 3, 5, 0⟩ :=
  filename_order_same_century ⟨"", "via_socket", "txt"⟩
    ⟨2024, 5, 9, 7, 3, 4, 123456⟩ ⟨2024, 5, 9, 7, 3, 5, 0⟩
    (by decide) (by decide) rfl

end FileViaSocket
